import Mathlib

/-
Verification development for the perm-scraper repository.

The extraction engine of src/perm_scraper.py is shallowly embedded here.
Text is modelled as List Char, Python dictionaries whose key sets are fixed
by the code are modelled as structures with Option fields, and code that can
raise a Python exception is modelled in the Except monad.  Python regular
expression searches are embedded as specialized scanners: each scanner
mirrors one concrete pattern from the source, trying candidate start
positions from the left exactly as re.search and re.findall do.
-/

set_option autoImplicit false

/-- Python exception kinds that the embedded code can raise. -/
inductive PyErr where
  | nameErr   : PyErr
  | typeErr   : PyErr
  | valueErr  : PyErr
  | indexErr  : PyErr
deriving DecidableEq, Repr

/-- Test whether the token list occurs in s starting exactly at index i. -/
def matchAt (s tok : List Char) (i : Nat) : Bool :=
  tok.isPrefixOf (s.drop i)

/-- Fuel-driven scan for the leftmost occurrence of tok at an index of at
least i; the wrapper below supplies enough fuel to cover the string. -/
def findIdxFromAux (s tok : List Char) : Nat → Nat → Option Nat
  | 0, _ => none
  | fuel + 1, i => if matchAt s tok i then some i else findIdxFromAux s tok fuel (i + 1)

/-- Leftmost occurrence of tok in s at an index of at least i, as with the
Python expression s.find(tok, i) restricted to nonnegative results. -/
def findIdxFrom (s tok : List Char) (i : Nat) : Option Nat :=
  findIdxFromAux s tok (s.length + 1 - i) i

/-- Python substring membership, as in the expression tok in s. -/
def containsSub (s tok : List Char) : Bool :=
  (findIdxFrom s tok 0).isSome

/-- Python str.find with an Int start position: a negative start counts from
the end of the string (clamped at 0) and a miss is reported as -1. -/
def pyFind (s tok : List Char) (start : Int) : Int :=
  let b : Nat := if start < 0 then ((s.length : Int) + start).toNat else start.toNat
  match findIdxFrom s tok b with
  | some j => (j : Int)
  | none => -1

/-- Fuel-driven body of pyReplace; each step either copies one character or
consumes one occurrence of the (nonempty) pattern. -/
def pyReplaceAux (old new : List Char) : Nat → List Char → List Char
  | 0, s => s
  | fuel + 1, s =>
    if old ≠ [] ∧ old.isPrefixOf s then
      new ++ pyReplaceAux old new fuel (s.drop old.length)
    else
      match s with
      | [] => []
      | c :: t => c :: pyReplaceAux old new fuel t

/-- Python str.replace for a nonempty pattern: left-to-right, non-overlapping
replacement of every occurrence of old by new. -/
def pyReplace (s old new : List Char) : List Char :=
  pyReplaceAux old new s.length s

/-- Python str.split for a one-character separator. -/
def splitOnChar : List Char → Char → List (List Char)
  | [], _ => [[]]
  | a :: t, c =>
    match splitOnChar t c with
    | [] => [[]]
    | h :: r => if a = c then [] :: h :: r else (a :: h) :: r

/-- Python str.strip with no argument: whitespace removed from both ends. -/
def pyStrip (s : List Char) : List Char :=
  ((s.dropWhile Char.isWhitespace).reverse.dropWhile Char.isWhitespace).reverse

/-- Numeric value of a digit string. -/
def digitsVal (ds : List Char) : Nat :=
  ds.foldl (fun a c => a * 10 + (c.toNat - '0'.toNat)) 0

/-- Python int(str) restricted to optionally signed decimal literals; any
other argument raises ValueError, which callers map to an error. -/
def pyInt (s : List Char) : Option Int :=
  match pyStrip s with
  | '-' :: ds => if ds ≠ [] ∧ ds.all Char.isDigit then some (-(digitsVal ds : Int)) else none
  | '+' :: ds => if ds ≠ [] ∧ ds.all Char.isDigit then some ((digitsVal ds : Int)) else none
  | ds => if ds ≠ [] ∧ ds.all Char.isDigit then some ((digitsVal ds : Int)) else none

/-- Python format specifier 02d applied to an int: zero-pad to width two. -/
def formatD2 (n : Int) : List Char :=
  if 0 ≤ n ∧ n < 10 then '0' :: (toString n).toList else (toString n).toList

/-- Per-character contribution to the square-bracket nesting depth. -/
def brDelta (c : Char) : Int :=
  if c = '[' then 1 else if c = ']' then -1 else 0

/-- Net square-bracket nesting of a span of text. -/
def brSum (cs : List Char) : Int :=
  cs.foldr (fun c acc => brDelta c + acc) 0

/-- One step of the bracket-counting loop of extract_perm_data: the if and
elif on the current character update the running bracket count. -/
def bracketStep (c : Char) (k : Int) : Int :=
  if c = '[' then k + 1 else if c = ']' then k - 1 else k

/-- The while loop of the bracket scan (perm_scraper.py lines 81 to 87 and
203 to 209): starting at index i with count k, advance while the count is
positive; the fuel is exactly the distance from i to the search limit, so
running out of fuel is the same as reaching the limit.  Returns the final
index together with the final bracket count. -/
def bracketLoop (s : List Char) : Nat → Nat → Int → Nat × Int
  | 0, i, k => (i, k)
  | fuel + 1, i, k =>
    if k > 0 then bracketLoop s fuel (i + 1) (bracketStep (s.getD i ' ') k)
    else (i, k)

/-- Balanced-array span extraction of extract_perm_data (lines 69 to 99 for
the monthly array with a 50000-character window, lines 195 to 221 for the
daily array with a 20000-character window): scan forward from the opening
bracket counting nesting, and return the span only when the count reaches
zero inside the window; otherwise report that no array was found. -/
def extractBalanced (s : List Char) (start window : Nat) : Option (List Char) :=
  let limit := min (start + window) s.length
  let r := bracketLoop s (limit - (start + 1)) (start + 1) 1
  if r.2 = 0 then some ((s.drop start).take (r.1 - start)) else none

/-- One status entry of a monthly record, as in the data model of the spec
and the dictionaries built by extract_perm_data: counts are nonnegative
while a daily change is an arbitrary integer. -/
structure StatusEntry where
  status : List Char
  count : Nat
  dailyChange : Int
deriving DecidableEq, Repr

/-- One monthly submission record. -/
structure Month where
  month : List Char
  active : Bool
  statuses : List StatusEntry
deriving DecidableEq, Repr

/-- One recovered day entry: the raw date label and the summed total. -/
structure DayRec where
  date : List Char
  total : Nat
deriving DecidableEq, Repr

/-- Literal text matched by the todayDate regex of line 63,
namely the pattern todayDate\":\"([^\"]+)\" whose escaped quotes compile
to plain quote characters. -/
def todayTok : List Char := "todayDate\":\"".toList

/-- Retry loop of the todayDate search: at each occurrence of the literal
head the capture must be a nonempty quote-free run followed by a quote,
otherwise the search resumes one position further, as re.search does. -/
def todaySearchAux (s : List Char) : Nat → Nat → Option (List Char)
  | 0, _ => none
  | fuel + 1, i =>
    match findIdxFrom s todayTok i with
    | none => none
    | some j =>
      let rest := s.drop (j + todayTok.length)
      let cap := rest.takeWhile (fun c => c ≠ '"')
      if cap ≠ [] ∧ (rest.drop cap.length).head? = some '"' then some cap
      else todaySearchAux s fuel (j + 1)

/-- Embedding of re.search for the todayDate pattern of line 63. -/
def todaySearch (s : List Char) : Option (List Char) :=
  todaySearchAux s (s.length + 1) 0

/-- Literal head of the percentile pattern of line 329: the escaped quotes
around 30% as they appear in the raw fragment text. -/
def tok30 : List Char := "\\\"30%\\\"".toList

/-- Literal 50% token of the percentile pattern. -/
def tok50 : List Char := "\\\"50%\\\"".toList

/-- Literal 80% token of the percentile pattern. -/
def tok80 : List Char := "\\\"80%\\\"".toList

/-- Literal marker preceding each captured percentile value. -/
def tokLe : List Char := "\\\"≤ \\\"".toList

/-- Leftmost occurrence of tok at an index of at least i such that the gap
from i to the occurrence contains no newline: the lazy dot of the percentile
pattern cannot cross a newline because DOTALL is not set. -/
def gapFindAux (s tok : List Char) : Nat → Nat → Option Nat
  | 0, _ => none
  | fuel + 1, i =>
    if matchAt s tok i then some i
    else if s.length ≤ i ∨ s.getD i ' ' = '\n' then none
    else gapFindAux s tok fuel (i + 1)

/-- Wrapper supplying enough fuel for the newline-bounded gap search. -/
def gapFind (s tok : List Char) (i : Nat) : Option Nat :=
  gapFindAux s tok (s.length + 1 - i) i

/-- One stage of the percentile pattern: from index i, cross a lazy gap to
the next less-or-equal marker and greedily capture the digits after it,
returning the value and the index after the digits. -/
def percStep (s : List Char) (i : Nat) : Option (Nat × Nat) :=
  match gapFind s tokLe i with
  | none => none
  | some p =>
    let ds := (s.drop (p + tokLe.length)).takeWhile Char.isDigit
    if ds = [] then none
    else some (digitsVal ds, p + tokLe.length + ds.length)

/-- One attempted match of the full percentile pattern of line 329 starting
at an occurrence j of the 30% token.  This follows the leftmost lazy choice
at every stage; on inputs where each such choice extends to a full match
(all inputs considered in this development) it coincides with re.search. -/
def percAttempt (s : List Char) (j : Nat) : Option (Nat × Nat × Nat) :=
  match percStep s (j + tok30.length) with
  | none => none
  | some (n1, i1) =>
    match gapFind s tok50 i1 with
    | none => none
    | some p2 =>
      match percStep s (p2 + tok50.length) with
      | none => none
      | some (n2, i2) =>
        match gapFind s tok80 i2 with
        | none => none
        | some p3 =>
          match percStep s (p3 + tok80.length) with
          | none => none
          | some (n3, _) => some (n1, n2, n3)

/-- Retry loop over occurrences of the 30% token, as re.search retries
later start positions after a failed attempt. -/
def percSearchAux (s : List Char) : Nat → Nat → Option (Nat × Nat × Nat)
  | 0, _ => none
  | fuel + 1, i =>
    match findIdxFrom s tok30 i with
    | none => none
    | some j =>
      match percAttempt s j with
      | some r => some r
      | none => percSearchAux s fuel (j + 1)

/-- Embedding of the percentile extraction of lines 328 to 337. -/
def percSearch (s : List Char) : Option (Nat × Nat × Nat) :=
  percSearchAux s (s.length + 1) 0

/-- Literal head of the first daily anchor pattern of line 153, matching the
doubly escaped payload variant. -/
def anchor1 : List Char := "[\\\"$\\\",\\\"$L18\\\",null,\x7b\\\"data\\\":[".toList

/-- Literal head of the third daily anchor pattern of line 155, matching the
unescaped payload variant. -/
def anchor3 : List Char := "[\"$\",\"$L18\",null,\x7b\"data\":[".toList

/-- Literal head of the fourth daily anchor pattern of line 156. -/
def anchor4 : List Char := "L18\",null,\x7b\"data\":[".toList

mutual
/-- Existence of a match of the repeated group part of the daily anchor
patterns, namely one or more comma-brace groups followed by a closing
square bracket, at the head of the input.  The fuel dominates the input
length, so exhausting it cannot cut off a real match. -/
def groupsMatch : Nat → List Char → Bool
  | 0, _ => false
  | fuel + 1, cs =>
    match cs with
    | ',' :: '\x7b' :: rest => bodyMatch fuel rest
    | _ => false

/-- Inside a group body: the body may close at any brace (after which either
the final bracket or a further group must follow) or extend across the
brace, exactly the alternatives regex backtracking explores; a body never
crosses a newline because the dot excludes it. -/
def bodyMatch : Nat → List Char → Bool
  | 0, _ => false
  | fuel + 1, cs =>
    match cs with
    | [] => false
    | '\x7d' :: rest =>
      (match rest with | ']' :: _ => true | _ => false)
        || groupsMatch fuel rest || bodyMatch fuel rest
    | '\n' :: _ => false
    | _ :: rest => bodyMatch fuel rest
end

/-- Tail of every daily anchor pattern after its literal head: one or more
digits, then the repeated groups closed by a bracket. -/
def l18TailMatch (cs : List Char) : Bool :=
  let ds := cs.takeWhile Char.isDigit
  ds ≠ [] && groupsMatch (cs.length + 1) (cs.drop ds.length)

/-- Retry loop of re.search for one daily anchor pattern: the leftmost
occurrence of the literal head whose tail also matches. -/
def l18AnchorSearchAux (s anchor : List Char) : Nat → Nat → Option Nat
  | 0, _ => none
  | fuel + 1, i =>
    match findIdxFrom s anchor i with
    | none => none
    | some j =>
      if l18TailMatch (s.drop (j + anchor.length)) then some j
      else l18AnchorSearchAux s anchor fuel (j + 1)

/-- Leftmost match position of one daily anchor pattern. -/
def l18AnchorSearch (s anchor : List Char) : Option Nat :=
  l18AnchorSearchAux s anchor (s.length + 1) 0

/-- The prioritized daily anchor pattern list of lines 152 to 168: the four
patterns are tried in order and the first that matches anywhere wins.  The
second pattern of the list contains an unescaped dollar sign, which the
regex engine reads as an end-of-input anchor followed by further required
characters; no string can satisfy it, so that pattern never matches and is
embedded as a always-failing alternative. -/
def l18PatternSearch (s : List Char) : Option Nat :=
  match l18AnchorSearch s anchor1 with
  | some j => some j
  | none =>
    match l18AnchorSearch s anchor3 with
    | some j => some j
    | none => l18AnchorSearch s anchor4

/-- Literal head of the inner data-array pattern of line 230. -/
def dataTok : List Char := "\"data\":[".toList

mutual
/-- Length-computing variant of groupsMatch used for the capturing group of
the data-array pattern: returns how many characters the repeated groups
consume, following the preference order of the regex engine (the greedy
plus iterates before closing, the lazy body closes as early as possible). -/
def groupsCap : Nat → List Char → Option Nat
  | 0, _ => none
  | fuel + 1, cs =>
    match cs with
    | ',' :: '\x7b' :: rest => (bodyCap fuel rest).map (· + 2)
    | _ => none

/-- Length-computing variant of bodyMatch, preferring to close the group at
the current brace and iterate, then to close and finish at a bracket, and
only then to extend the body across the brace. -/
def bodyCap : Nat → List Char → Option Nat
  | 0, _ => none
  | fuel + 1, cs =>
    match cs with
    | [] => none
    | '\x7d' :: rest =>
      (match (groupsCap fuel rest).map (· + 1) with
       | some n => some n
       | none =>
         match rest with
         | ']' :: _ => some 1
         | _ => (bodyCap fuel rest).map (· + 1))
    | '\n' :: _ => none
    | _ :: rest => (bodyCap fuel rest).map (· + 1)
end

/-- One attempted match of the data-array pattern at occurrence j of its
literal head: greedy digits give the default panel index, and the repeated
groups give the day-objects capture. -/
def dataMatchAttempt (s : List Char) (j : Nat) : Option (Int × List Char) :=
  let cs := s.drop (j + dataTok.length)
  let ds := cs.takeWhile Char.isDigit
  if ds = [] then none
  else
    match groupsCap (cs.length + 1) (cs.drop ds.length) with
    | some len => some ((digitsVal ds : Int), (cs.drop ds.length).take len)
    | none => none

/-- Retry loop of re.search for the data-array pattern of line 230. -/
def dataMatchAux (s : List Char) : Nat → Nat → Option (Int × List Char)
  | 0, _ => none
  | fuel + 1, i =>
    match findIdxFrom s dataTok i with
    | none => none
    | some j =>
      match dataMatchAttempt s j with
      | some r => some r
      | none => dataMatchAux s fuel (j + 1)

/-- Embedding of the data-array search of line 230. -/
def dataMatch (s : List Char) : Option (Int × List Char) :=
  dataMatchAux s (s.length + 1) 0

/-- Literal head of the day-object pattern of lines 244 and 285. -/
def dayTok : List Char := "\x7b\"0\":\"".toList

/-- One attempted match of the day-object pattern at occurrence j of its
literal head: a nonempty quote-free date label, a closing quote, then the
lazy value capture up to the first closing brace.  Returns the two captures
and the index one past the match. -/
def dayAttempt (s : List Char) (j : Nat) : Option ((List Char × List Char) × Nat) :=
  let r0 := s.drop (j + dayTok.length)
  let date := r0.takeWhile (fun c => c ≠ '"')
  if date = [] then none
  else
    match r0.drop date.length with
    | '"' :: r2 =>
      let vals := r2.takeWhile (fun c => c ≠ '\x7d')
      if vals.contains '\n' then none
      else
        match r2.drop vals.length with
        | '\x7d' :: _ =>
          some ((date, vals), j + dayTok.length + date.length + 1 + vals.length + 1)
        | _ => none
    | _ => none

/-- Embedding of re.findall for the day-object pattern: scan left to right,
collecting non-overlapping matches and resuming after each match end. -/
def dayScanAux (s : List Char) : Nat → Nat → List (List Char × List Char)
  | 0, _ => []
  | fuel + 1, i =>
    match findIdxFrom s dayTok i with
    | none => []
    | some j =>
      match dayAttempt s j with
      | some (caps, e) => caps :: dayScanAux s fuel e
      | none => dayScanAux s fuel (j + 1)

/-- All day-object captures of the input, in order. -/
def dayScan (s : List Char) : List (List Char × List Char) :=
  dayScanAux s (s.length + 1) 0

/-- One attempted match of the numeric value pattern of lines 253 and 294
at the head of the input: a quoted digit key, a colon and a digit value.
Returns key, value and the match length. -/
def valueAttempt (s : List Char) : Option (Nat × Nat × Nat) :=
  match s with
  | '"' :: r =>
    let ks := r.takeWhile Char.isDigit
    if ks = [] then none
    else
      match r.drop ks.length with
      | '"' :: ':' :: r2 =>
        let vs := r2.takeWhile Char.isDigit
        if vs = [] then none
        else some (digitsVal ks, digitsVal vs, 1 + ks.length + 2 + vs.length)
      | _ => none
  | _ => none

/-- Embedding of re.findall for the value pattern: advance one character on
a mismatch and past the whole match on a hit. -/
def valueScanAux : Nat → List Char → List (Nat × Nat)
  | 0, _ => []
  | fuel + 1, s =>
    match s with
    | [] => []
    | _ :: t =>
      match valueAttempt s with
      | some (k, v, len) => (k, v) :: valueScanAux fuel (s.drop len)
      | none => valueScanAux fuel t

/-- All key-value captures of the input, in order. -/
def valueScan (s : List Char) : List (Nat × Nat) :=
  valueScanAux (s.length + 1) s

/-- Sum of the numeric values of a day object, as accumulated by the loop
of lines 256 to 262. -/
def sumVals (s : List Char) : Nat :=
  (valueScan s).foldl (fun a kv => a + kv.2) 0

/-- Transformation of day-object captures into day records (lines 248 to
268 on the primary path and 289 to 308 on the fallback path, which apply
the same replacement of a literal backslash-n by a space; the primary path
applies the idempotent replacement twice). -/
def dayRecords (pairs : List (List Char × List Char)) : List DayRec :=
  pairs.map fun dv => { date := pyReplace dv.1 "\\n".toList " ".toList, total := sumVals dv.2 }

/-- The dormant regex fallback of lines 285 to 308: scan a span directly
for day-object-shaped substrings and sum their values. -/
def dayRegexScan (cleaned : List Char) : List DayRec :=
  dayRecords (dayScan cleaned)

/-- One level of unescaping, as on lines 99, 221 and 227: collapse escaped
quotes, then escaped backslashes. -/
def unescape (s : List Char) : List Char :=
  pyReplace (pyReplace s "\\\"".toList "\"".toList) "\\\\".toList "\\".toList

/-- Literal head of the month pattern of line 113. -/
def monthTok : List Char := "\"month\":\"".toList

/-- Literal middle piece of the month pattern before the active flag. -/
def tokActive : List Char := "\",\"active\":".toList

/-- Literal piece of the month pattern before the statuses capture. -/
def tokStatuses : List Char := ",\"statuses\":[".toList

/-- Literal head of the status pattern of line 119. -/
def statusTok : List Char := "\"status\":\"".toList

/-- Literal middle piece of the status pattern before the count. -/
def tokCount : List Char := "\",\"count\":".toList

/-- Literal piece of the status pattern before the daily change. -/
def tokDC : List Char := ",\"dailyChange\":".toList

/-- One attempted match of the status pattern at occurrence j of its literal
head.  Returns the record and the index one past the match. -/
def statusAttempt (s : List Char) (j : Nat) : Option (StatusEntry × Nat) :=
  let r0 := s.drop (j + statusTok.length)
  let name := r0.takeWhile (fun c => c ≠ '"')
  if name = [] then none
  else
    let r1 := r0.drop name.length
    if tokCount.isPrefixOf r1 then
      let r2 := r1.drop tokCount.length
      let cnt := r2.takeWhile Char.isDigit
      if cnt = [] then none
      else
        let r3 := r2.drop cnt.length
        if tokDC.isPrefixOf r3 then
          let r4 := r3.drop tokDC.length
          let dc := r4.takeWhile Char.isDigit
          if dc = [] then none
          else
            some ({ status := name, count := digitsVal cnt, dailyChange := (digitsVal dc : Int) },
              j + statusTok.length + name.length + tokCount.length + cnt.length
                + tokDC.length + dc.length)
        else none
    else none

/-- Embedding of re.findall for the status pattern of lines 119 to 128. -/
def statusScanAux (s : List Char) : Nat → Nat → List StatusEntry
  | 0, _ => []
  | fuel + 1, i =>
    match findIdxFrom s statusTok i with
    | none => []
    | some j =>
      match statusAttempt s j with
      | some (st, e) => st :: statusScanAux s fuel e
      | none => statusScanAux s fuel (j + 1)

/-- All status captures of a statuses span, in order. -/
def statusScan (s : List Char) : List StatusEntry :=
  statusScanAux s (s.length + 1) 0

/-- One attempted match of the month pattern at occurrence j of its literal
head: month name, active flag, then the lazy statuses capture up to the
first closing square bracket, which is then scanned for status records
(lines 113 to 134). -/
def monthAttempt (s : List Char) (j : Nat) : Option (Month × Nat) :=
  let r0 := s.drop (j + monthTok.length)
  let name := r0.takeWhile (fun c => c ≠ '"')
  if name = [] then none
  else
    let r1 := r0.drop name.length
    if tokActive.isPrefixOf r1 then
      let r2 := r1.drop tokActive.length
      match (if "true".toList.isPrefixOf r2 then some (true, 4)
             else if "false".toList.isPrefixOf r2 then some (false, 5) else none) with
      | none => none
      | some (b, blen) =>
        let r3 := r2.drop blen
        if tokStatuses.isPrefixOf r3 then
          let r4 := r3.drop tokStatuses.length
          let body := r4.takeWhile (fun c => c ≠ ']')
          if body.contains '\n' then none
          else
            match r4.drop body.length with
            | ']' :: _ =>
              some ({ month := name, active := b, statuses := statusScan body },
                j + monthTok.length + name.length + tokActive.length + blen
                  + tokStatuses.length + body.length + 1)
            | _ => none
        else none
    else none

/-- Embedding of re.findall for the month pattern: the manual regex recovery
of monthly records used when JSON parsing fails. -/
def monthScanAux (s : List Char) : Nat → Nat → List Month
  | 0, _ => []
  | fuel + 1, i =>
    match findIdxFrom s monthTok i with
    | none => []
    | some j =>
      match monthAttempt s j with
      | some (m, e) => m :: monthScanAux s fuel e
      | none => monthScanAux s fuel (j + 1)

/-- All month captures of a cleaned span, in order. -/
def monthScan (s : List Char) : List Month :=
  monthScanAux s (s.length + 1) 0

/-- Literal expected by the JSON month parser before the active flag. -/
def jTokActive : List Char := ",\"active\":".toList

/-- Literal expected by the JSON month parser before the statuses array. -/
def jTokStatuses : List Char := ",\"statuses\":".toList

/-- Parse one JSON status object of the fixed shape produced by the source
page.  The json.loads call of line 102 accepts arbitrary JSON; this
embedding is restricted to the compact month-record shape that the rest of
the code consumes (fixed key order, no escapes inside strings, no interior
whitespace, nonnegative counts per the data model); payloads of any other
shape are treated as a parse failure, which sends the code down the regex
recovery path. -/
def parseStatusObj (s : List Char) : Option (StatusEntry × List Char) :=
  match s with
  | '\x7b' :: r =>
    if statusTok.isPrefixOf r then
      let r0 := r.drop statusTok.length
      let name := r0.takeWhile (fun c => c ≠ '"')
      if name = [] then none
      else
        let r1 := r0.drop name.length
        if tokCount.isPrefixOf r1 then
          let r2 := r1.drop tokCount.length
          let cnt := r2.takeWhile Char.isDigit
          if cnt = [] then none
          else
            let r3 := r2.drop cnt.length
            if tokDC.isPrefixOf r3 then
              let r4 := r3.drop tokDC.length
              match r4 with
              | '-' :: r5 =>
                let dc := r5.takeWhile Char.isDigit
                if dc = [] then none
                else
                  match r5.drop dc.length with
                  | '\x7d' :: r6 =>
                    some ({ status := name, count := digitsVal cnt,
                            dailyChange := -(digitsVal dc : Int) }, r6)
                  | _ => none
              | _ =>
                let dc := r4.takeWhile Char.isDigit
                if dc = [] then none
                else
                  match r4.drop dc.length with
                  | '\x7d' :: r6 =>
                    some ({ status := name, count := digitsVal cnt,
                            dailyChange := (digitsVal dc : Int) }, r6)
                  | _ => none
            else none
        else none
    else none
  | _ => none

/-- Parse the elements of a nonempty JSON status array after its opening
bracket. -/
def parseStatusesAux : Nat → List Char → Option (List StatusEntry × List Char)
  | 0, _ => none
  | fuel + 1, s =>
    match parseStatusObj s with
    | none => none
    | some (st, r) =>
      match r with
      | ',' :: r2 => (parseStatusesAux fuel r2).map (fun lr => (st :: lr.1, lr.2))
      | ']' :: r2 => some ([st], r2)
      | _ => none

/-- Parse a JSON status array. -/
def parseStatuses (s : List Char) : Option (List StatusEntry × List Char) :=
  match s with
  | '[' :: ']' :: r => some ([], r)
  | '[' :: r => parseStatusesAux (r.length + 1) r
  | _ => none

/-- Parse one JSON month object of the fixed shape produced by the source
page. -/
def parseMonthObj (s : List Char) : Option (Month × List Char) :=
  match s with
  | '\x7b' :: r =>
    if monthTok.isPrefixOf r then
      let r0 := r.drop monthTok.length
      let name := r0.takeWhile (fun c => c ≠ '"')
      if name = [] then none
      else
        let r1 := r0.drop name.length
        match r1 with
        | '"' :: r1a =>
          if jTokActive.isPrefixOf r1a then
            let r2 := r1a.drop jTokActive.length
            match (if "true".toList.isPrefixOf r2 then some (true, 4)
                   else if "false".toList.isPrefixOf r2 then some (false, 5) else none) with
            | none => none
            | some (b, blen) =>
              let r3 := r2.drop blen
              if jTokStatuses.isPrefixOf r3 then
                match parseStatuses (r3.drop jTokStatuses.length) with
                | none => none
                | some (sts, r4) =>
                  match r4 with
                  | '\x7d' :: r5 =>
                    some ({ month := name, active := b, statuses := sts }, r5)
                  | _ => none
              else none
          else none
        | _ => none
    else none
  | _ => none

/-- Parse the elements of a nonempty JSON month array after its opening
bracket. -/
def parseMonthsAux : Nat → List Char → Option (List Month × List Char)
  | 0, _ => none
  | fuel + 1, s =>
    match parseMonthObj s with
    | none => none
    | some (m, r) =>
      match r with
      | ',' :: r2 => (parseMonthsAux fuel r2).map (fun lr => (m :: lr.1, lr.2))
      | ']' :: r2 => some ([m], r2)
      | _ => none

/-- The json.loads call of line 102 on the cleaned array text, restricted to
the month-record shape (see parseStatusObj): the whole input must be
consumed. -/
def jsonMonths (s : List Char) : Option (List Month) :=
  match s with
  | '[' :: ']' :: r => if r = [] then some [] else none
  | '[' :: r =>
    match parseMonthsAux (r.length + 1) r with
    | some (l, rest) => if rest = [] then some l else none
    | none => none
  | _ => none

/-- The module-level month-abbreviation table of lines 30 to 33. -/
def month_num_map : List (List Char × Nat) :=
  [("Jan".toList, 1), ("Feb".toList, 2), ("Mar".toList, 3), ("Apr".toList, 4),
   ("May".toList, 5), ("Jun".toList, 6), ("Jul".toList, 7), ("Aug".toList, 8),
   ("Sep".toList, 9), ("Oct".toList, 10), ("Nov".toList, 11), ("Dec".toList, 12)]

/-- Dictionary lookup in the month table, as month_num_map.get(month). -/
def monthLookup (m : List Char) : Option Nat :=
  (month_num_map.find? (fun p => p.1 == m)).map (fun p => p.2)

/-- Round half to even on rationals, the rounding used by the Python round
builtin. -/
def rhe (q : ℚ) : ℤ :=
  if q - ⌊q⌋ < 1 / 2 then ⌊q⌋
  else if 1 / 2 < q - ⌊q⌋ then ⌊q⌋ + 1
  else if ⌊q⌋ % 2 = 0 then ⌊q⌋ else ⌊q⌋ + 1

/-- Python round(x, 2) over the rationals: round half to even at two
decimal places. -/
def round2 (q : ℚ) : ℚ :=
  (rhe (q * 100) : ℚ) / 100

/-- The summary record built on lines 368 to 374. -/
structure Summary where
  total_applications : Nat
  pending_applications : Nat
  pending_percentage : ℚ
  changes_today : Int
  completed_today : Int
deriving DecidableEq, Repr

/-- One iteration of the inner status loop of lines 352 to 366, updating
the four accumulators (total, pending, changes, completed). -/
def statusAccum (acc : Nat × Nat × Int × Int) (st : StatusEntry) : Nat × Nat × Int × Int :=
  (acc.1 + st.count,
   (if st.status = "ANALYST REVIEW".toList then acc.2.1 + st.count else acc.2.1),
   acc.2.2.1 + st.dailyChange,
   (if (st.status = "CERTIFIED".toList ∨ st.status = "DENIED".toList
        ∨ st.status = "WITHDRAWN".toList) ∧ st.dailyChange > 0 then
      acc.2.2.2 + st.dailyChange
    else acc.2.2.2))

/-- One iteration of the outer month loop of line 351. -/
def monthAccum (acc : Nat × Nat × Int × Int) (m : Month) : Nat × Nat × Int × Int :=
  m.statuses.foldl statusAccum acc

/-- The Summary Aggregator (lines 344 to 374): a pure function of the
monthly status records; the percentage division is guarded by the
positivity test of line 371. -/
def computeSummary (months : List Month) : Summary :=
  let a := months.foldl monthAccum (0, 0, 0, 0)
  { total_applications := a.1
    pending_applications := a.2.1
    pending_percentage :=
      if a.1 > 0 then round2 ((a.2.1 : ℚ) / (a.1 : ℚ) * 100) else 0
    changes_today := a.2.2.1
    completed_today := a.2.2.2 }

/-- The result dictionary of extract_perm_data, with one Option field per
key the function can set. -/
structure ExtractResult where
  todayDate : Option (List Char) := none
  submissionMonths : Option (List Month) := none
  defaultPanIndex : Option Int := none
  dailyProgress : Option (List DayRec) := none
  processingTimes : Option (Nat × Nat × Nat) := none
  summary : Option Summary := none
deriving DecidableEq, Repr

/-- The Structured-Array Recoverer (lines 69 to 147): locate the
submissionMonths key at a positive offset, find the first bracket after it,
take the balanced span inside the 50000-character window, unescape it, and
parse it as JSON with the month regex recovery as fallback; the field stays
absent on any structural miss. -/
def subMonthsStage (block : List Char) : Option (List Month) :=
  let sub_pos := pyFind block "submissionMonths".toList 0
  if sub_pos > 0 then
    let array_start := pyFind block "[".toList sub_pos
    if array_start > 0 then
      match extractBalanced block array_start.toNat 50000 with
      | some raw =>
        let cleaned := unescape raw
        match jsonMonths cleaned with
        | some m => some m
        | none =>
          let pm := monthScan cleaned
          if pm ≠ [] then some pm else none
      | none => none
    else none
  else none

/-- The Daily-Series Recoverer (lines 149 to 326).  When one of the four
anchor patterns matches, the balanced span at the first bracket after the
match start is unescaped twice and decomposed by the data-array pattern
into the default panel index and the day objects; a success returns those
two, and every miss returns none with no binding of the day data.  When no
pattern matches but the block contains the dollar-L18 tag at a positive
offset, the word data after it and a later bracket, the general fallback of
line 182 evaluates re.Match(), a class that cannot be instantiated, and the
run raises TypeError. -/
def dailyStage (block : List Char) : Except PyErr (Option (Int × List DayRec)) :=
  match l18PatternSearch block with
  | some chunk_start =>
    let array_start := pyFind block "[".toList (chunk_start : Int)
    if array_start > 0 then
      match extractBalanced block array_start.toNat 20000 with
      | some raw =>
        let cleaned := unescape raw
        let normalized := unescape cleaned
        match dataMatch normalized with
        | some (idx, dayObjs) =>
          let dayObjs2 := match dayObjs with | ',' :: t => t | l => l
          Except.ok (some (idx, dayRecords (dayScan dayObjs2)))
        | none => Except.ok none
      | none => Except.ok none
    else Except.ok none
  | none =>
    let l18_pos := pyFind block "$L18".toList 0
    let data_pos := pyFind block "data".toList l18_pos
    if l18_pos > 0 ∧ data_pos > l18_pos then
      if pyFind block "[".toList data_pos > 0 then Except.error PyErr.typeErr
      else Except.ok none
    else Except.ok none

/-- The today-label parse of lines 398 to 402: strip the today marker,
split on slashes, map the month abbreviation and format.  An unknown
abbreviation makes month_num_map.get return the string 01, and formatting
a string with the 02d specifier raises ValueError; fewer than three parts
raise IndexError; a non-numeric day raises ValueError from int. -/
def parseTodayLabel (label : List Char) : Except PyErr (List Char) :=
  let stripped := pyReplace label " (today)".toList "".toList
  match splitOnChar stripped '/' with
  | month :: day :: yr :: _ =>
    let yearS := "20".toList ++ yr
    match monthLookup month with
    | some mn =>
      match pyInt day with
      | some dn =>
        Except.ok (yearS ++ '-' :: formatD2 (mn : Int) ++ '-' :: formatD2 dn)
      | none => Except.error PyErr.valueErr
    | none => Except.error PyErr.valueErr
  | _ => Except.error PyErr.indexErr

/-- The variant parse of lines 415 to 419 used on the last entry: cut at
the first opening parenthesis, strip, then split on slashes and format with
the same month table access. -/
def parseTodayLabel2 (label : List Char) : Except PyErr (List Char) :=
  match splitOnChar label '(' with
  | [] => Except.error PyErr.indexErr
  | h :: _ =>
    match splitOnChar (pyStrip h) '/' with
    | month :: day :: yr :: _ =>
      let yearS := "20".toList ++ yr
      match monthLookup month with
      | some mn =>
        match pyInt day with
        | some dn =>
          Except.ok (yearS ++ '-' :: formatD2 (mn : Int) ++ '-' :: formatD2 dn)
        | none => Except.error PyErr.valueErr
      | none => Except.error PyErr.valueErr
    | _ => Except.error PyErr.indexErr

/-- The loop of lines 391 to 407 restricted to its today-date effect: every
entry whose label contains the today marker overwrites the running date
(the rebuilt daily-progress list equals the day data and is not modelled
separately). -/
def computeTodayLoop : List DayRec → Option (List Char) → Except PyErr (Option (List Char))
  | [], td => Except.ok td
  | d :: rest, td =>
    if containsSub d.date "(today)".toList then
      match parseTodayLabel d.date with
      | Except.ok s => computeTodayLoop rest (some s)
      | Except.error e => Except.error e
    else computeTodayLoop rest td

/-- The tail of extract_perm_data (lines 386 to 428) once the day data is
bound: compute the today date from marked labels, fall back to the last
entry when it mentions today, and unconditionally store the outcome in the
todayDate field of the result. -/
def finalizeToday (dd : List DayRec) (r : ExtractResult) : Except PyErr ExtractResult :=
  match computeTodayLoop dd none with
  | Except.error e => Except.error e
  | Except.ok td =>
    match td with
    | some s => Except.ok { r with todayDate := some s }
    | none =>
      match dd.getLast? with
      | some lastD =>
        if containsSub lastD.date "today".toList then
          match parseTodayLabel2 lastD.date with
          | Except.ok s => Except.ok { r with todayDate := some s }
          | Except.error e => Except.error e
        else Except.ok { r with todayDate := none }
      | none => Except.ok { r with todayDate := none }

/-- The body of extract_perm_data on the target fragment, in source order:
the todayDate search of line 63, the monthly stage, the daily stage (which
may raise), the percentile search, the summary for a nonempty monthly list,
and the final today-date loop, which raises NameError when the day data was
never bound (line 391 reads the local variable daily_data that only the
successful daily decomposition assigns). -/
def extractFromBlock (block : List Char) : Except PyErr ExtractResult :=
  let r1 : ExtractResult :=
    { todayDate := todaySearch block, submissionMonths := subMonthsStage block }
  match dailyStage block with
  | Except.error e => Except.error e
  | Except.ok dopt =>
    let r2 := match dopt with
      | some p => { r1 with defaultPanIndex := some p.1, dailyProgress := some p.2 }
      | none => r1
    let r3 := { r2 with processingTimes := percSearch block }
    let r4 := match r3.submissionMonths with
      | some l => if l ≠ [] then { r3 with summary := some (computeSummary l) } else r3
      | none => r3
    match dopt with
    | none => Except.error PyErr.nameErr
    | some p => finalizeToday p.2 r4

/-- Literal opening delimiter of a script payload (line 41). -/
def openTok : List Char := "<script>self.__next_f.push([1,".toList

/-- Literal closing delimiter of a script payload. -/
def closeTok : List Char := "\"])</script>".toList

/-- The Block Locator scan of line 41: at each occurrence of the opening
delimiter, skip whitespace, require a quote, and capture lazily up to the
next closing delimiter (DOTALL, so the capture may span lines); the scan
resumes after the match, and a failed occurrence is retried one position
further as re.findall does. -/
def findBlocksAux (html : List Char) : Nat → Nat → List (List Char)
  | 0, _ => []
  | fuel + 1, i =>
    match findIdxFrom html openTok i with
    | none => []
    | some j =>
      let p := j + openTok.length
      let ws := (html.drop p).takeWhile Char.isWhitespace
      let q := p + ws.length
      match (html.drop q).head? with
      | some '"' =>
        (match findIdxFrom html closeTok (q + 1) with
         | some k =>
           ((html.drop (q + 1)).take (k - (q + 1)))
             :: findBlocksAux html fuel (k + closeTok.length)
         | none => [])
      | _ => findBlocksAux html fuel (j + 1)

/-- All script payload fragments of the page, in order. -/
def findBlocks (html : List Char) : List (List Char) :=
  findBlocksAux html (html.length + 1) 0

/-- The target-fragment selection of lines 49 to 55: the first payload
containing the dataset marker. -/
def findTargetBlock (html : List Char) : Option (List Char) :=
  (findBlocks html).find? (fun b => containsSub b "submissionMonths".toList)

/-- The extraction engine extract_perm_data (lines 35 to 430): an absent
target fragment returns the empty result (line 60); otherwise the body runs
on the fragment and may raise. -/
def extract_perm_data (html : List Char) : Except PyErr ExtractResult :=
  match findTargetBlock html with
  | none => Except.ok {}
  | some b => extractFromBlock b

/-- Outcome of one fetch attempt, as decided by the network environment:
requests.get may raise a transport-level RequestException, and
raise_for_status raises HTTPError, a subclass of RequestException, on a
4xx or 5xx response. -/
inductive Outcome where
  | success (text : List Char) : Outcome
  | transportFail : Outcome
  | httpFail (code : Nat) : Outcome
deriving DecidableEq, Repr

/-- Error raised by the fetcher on its final attempt. -/
inductive FetchErr where
  | transport : FetchErr
  | http (code : Nat) : FetchErr
deriving DecidableEq, Repr

/-- The error a failing outcome raises. -/
def outcomeErr : Outcome → FetchErr
  | Outcome.success _ => FetchErr.transport
  | Outcome.transportFail => FetchErr.transport
  | Outcome.httpFail c => FetchErr.http c

/-- The retry loop of fetch_html_from_url (lines 449 to 476): every attempt
that raises a RequestException, transport and HTTP status failures alike,
is retried after a jittered sleep as long as attempts remain, and the final
failure is re-raised; a successful response is returned at once.  An
exhausted range without a raise (a zero retry count) falls off the loop and
returns None.  The fuel is the number of attempts still allowed, so fuel
zero is exactly the exit of the for loop over range(retry_count). -/
def fetchLoop (env : Nat → Outcome) (retry_count : Nat) :
    Nat → Nat → Except FetchErr (Option (List Char))
  | 0, _ => Except.ok none
  | fuel + 1, attempt =>
    match env attempt with
    | Outcome.success t => Except.ok (some t)
    | o =>
      if attempt < retry_count - 1 then fetchLoop env retry_count fuel (attempt + 1)
      else Except.error (outcomeErr o)

/-- The fetcher fetch_html_from_url, abstracted over the per-attempt
network outcome. -/
def fetch_html_from_url (env : Nat → Outcome) (retry_count : Nat) :
    Except FetchErr (Option (List Char)) :=
  fetchLoop env retry_count retry_count 0

/-- The record-date derivation of save_to_postgres (lines 627 to 650): strip
an optional today marker, cut at the first space, split on slashes, parse
day and century-expanded year as ints, and look up the month with the
integer default 1 (January); any exception inside the try is caught and
logged, leaving the date underived. -/
def derive_record_date (date_str0 : List Char) : Option (List Char) :=
  let date_str :=
    if containsSub date_str0 "(today)".toList then
      pyReplace date_str0 " (today)".toList "".toList
    else date_str0
  match splitOnChar date_str ' ' with
  | [] => none
  | h :: _ =>
    match splitOnChar h '/' with
    | month :: day :: yr :: _ =>
      match pyInt day, pyInt ("20".toList ++ yr) with
      | some dn, some yn =>
        let mn := (monthLookup month).getD 1
        some ((toString yn).toList ++ '-' :: formatD2 (mn : Int) ++ '-' :: formatD2 dn)
      | _, _ => none
    | _ => none

/-- Spec-side sum: all counts of a status list. -/
def specCounts (ss : List StatusEntry) : Nat :=
  (ss.map fun st => st.count).sum

/-- Spec-side sum: counts of the entries whose status is ANALYST REVIEW. -/
def specPendingCounts (ss : List StatusEntry) : Nat :=
  (ss.map fun st => if st.status = "ANALYST REVIEW".toList then st.count else 0).sum

/-- Spec-side sum: all daily changes of a status list. -/
def specChanges (ss : List StatusEntry) : Int :=
  (ss.map fun st => st.dailyChange).sum

/-- Spec-side sum: positive daily changes of the completed statuses. -/
def specCompleted (ss : List StatusEntry) : Int :=
  (ss.map fun st =>
    if (st.status = "CERTIFIED".toList ∨ st.status = "DENIED".toList
        ∨ st.status = "WITHDRAWN".toList) ∧ 0 < st.dailyChange then st.dailyChange else 0).sum

/-- Spec-side sum of all counts over all months. -/
def specTotalM (months : List Month) : Nat :=
  (months.map fun m => specCounts m.statuses).sum

/-- Spec-side sum of pending counts over all months. -/
def specPendingM (months : List Month) : Nat :=
  (months.map fun m => specPendingCounts m.statuses).sum

/-- Spec-side sum of daily changes over all months. -/
def specChangesM (months : List Month) : Int :=
  (months.map fun m => specChanges m.statuses).sum

/-- Spec-side sum of completed daily changes over all months. -/
def specCompletedM (months : List Month) : Int :=
  (months.map fun m => specCompleted m.statuses).sum

/-- The inner status fold accumulates exactly the four spec-side sums. -/
lemma statusAccum_foldl (ss : List StatusEntry) :
    ∀ (t p : Nat) (c d : Int),
      ss.foldl statusAccum (t, p, c, d) =
        (t + specCounts ss, p + specPendingCounts ss,
         c + specChanges ss, d + specCompleted ss) := by
  induction ss with
  | nil =>
    intro t p c d
    simp [specCounts, specPendingCounts, specChanges, specCompleted]
  | cons st rest ih =>
    intro t p c d
    simp only [List.foldl_cons, statusAccum]
    rw [ih]
    simp only [specCounts, specPendingCounts, specChanges, specCompleted,
      List.map_cons, List.sum_cons, Prod.mk.injEq]
    refine ⟨?_, ?_, ?_, ?_⟩ <;> first | omega | (split_ifs <;> omega)

/-- The outer month fold accumulates exactly the four spec-side sums. -/
lemma monthAccum_foldl (months : List Month) :
    ∀ (t p : Nat) (c d : Int),
      months.foldl monthAccum (t, p, c, d) =
        (t + specTotalM months, p + specPendingM months,
         c + specChangesM months, d + specCompletedM months) := by
  induction months with
  | nil =>
    intro t p c d
    simp [specTotalM, specPendingM, specChangesM, specCompletedM]
  | cons m rest ih =>
    intro t p c d
    simp only [List.foldl_cons, monthAccum]
    rw [statusAccum_foldl, ih]
    simp [specTotalM, specPendingM, specChangesM, specCompletedM]
    omega

/-- C1.  For every list of monthly status records, the summary computed by
extract_perm_data (the Summary Aggregator, a pure function of the records)
satisfies: total_applications is the sum of all status counts,
pending_applications is the sum of counts whose status equals ANALYST
REVIEW, changes_today is the sum of all dailyChange values, and
completed_today is the sum of dailyChange over the statuses CERTIFIED,
DENIED and WITHDRAWN restricted to entries with a positive dailyChange. -/
theorem summary_is_sum_of_records (months : List Month) :
    (computeSummary months).total_applications = specTotalM months ∧
    (computeSummary months).pending_applications = specPendingM months ∧
    (computeSummary months).changes_today = specChangesM months ∧
    (computeSummary months).completed_today = specCompletedM months := by
  unfold computeSummary
  rw [monthAccum_foldl]
  simp

/-- Round half to even never goes below the floor. -/
lemma floor_le_rhe (q : ℚ) : ⌊q⌋ ≤ rhe q := by
  unfold rhe
  split_ifs <;> omega

/-- Round half to even never exceeds the ceiling. -/
lemma rhe_le_ceil (q : ℚ) : rhe q ≤ ⌈q⌉ := by
  unfold rhe
  split_ifs with h1 h2 h3
  · exact Int.floor_le_ceil q
  · have hq : (⌊q⌋ : ℚ) < q := by
      have : (0 : ℚ) < q - ⌊q⌋ := lt_trans (by norm_num) h2
      linarith
    exact Int.add_one_le_ceil_iff.mpr hq
  · exact Int.floor_le_ceil q
  · have hq : (⌊q⌋ : ℚ) < q := by
      have h4 : ¬ (q - ⌊q⌋ < 1 / 2) := h1
      have : (0 : ℚ) < q - ⌊q⌋ := by
        by_contra hc
        push_neg at hc
        exact h4 (lt_of_le_of_lt hc (by norm_num))
      linarith
    exact Int.add_one_le_ceil_iff.mpr hq

/-- Rounding to two decimals preserves nonnegativity. -/
lemma round2_nonneg {q : ℚ} (h : 0 ≤ q) : 0 ≤ round2 q := by
  unfold round2
  apply div_nonneg _ (by norm_num)
  have h1 : (0 : Int) ≤ ⌊q * 100⌋ := Int.le_floor.mpr (by push_cast; positivity)
  have h2 := floor_le_rhe (q * 100)
  exact_mod_cast le_trans h1 h2

/-- Rounding to two decimals preserves the upper bound 100. -/
lemma round2_le_100 {q : ℚ} (h : q ≤ 100) : round2 q ≤ 100 := by
  unfold round2
  rw [div_le_iff₀ (by norm_num : (0 : ℚ) < 100)]
  have h1 : ⌈q * 100⌉ ≤ (10000 : Int) := Int.ceil_le.mpr (by push_cast; nlinarith)
  have h2 := rhe_le_ceil (q * 100)
  have h3 : rhe (q * 100) ≤ (10000 : Int) := le_trans h2 h1
  calc (rhe (q * 100) : ℚ) ≤ (10000 : ℚ) := by exact_mod_cast h3
    _ = 100 * 100 := by norm_num

/-- The pending sum never exceeds the total sum. -/
lemma specPendingM_le_specTotalM (months : List Month) :
    specPendingM months ≤ specTotalM months := by
  unfold specPendingM specTotalM
  apply List.sum_le_sum
  intro m _
  unfold specPendingCounts specCounts
  apply List.sum_le_sum
  intro st _
  split_ifs <;> omega

/-- C7.  For every list of monthly status records, the pending percentage of
the computed summary lies between 0 and 100, and it equals the two-decimal
rounding of pending over total times 100 when the total is positive and 0
when the total is zero; the division is guarded, so no division-by-zero
failure can occur. -/
theorem pending_percentage_in_range (months : List Month) :
    0 ≤ (computeSummary months).pending_percentage ∧
    (computeSummary months).pending_percentage ≤ 100 ∧
    (computeSummary months).pending_percentage =
      (if 0 < (computeSummary months).total_applications then
        round2 (((computeSummary months).pending_applications : ℚ)
          / ((computeSummary months).total_applications : ℚ) * 100)
      else 0) := by
  obtain ⟨ht, hp, -, -⟩ := summary_is_sum_of_records months
  have hle : (computeSummary months).pending_applications
      ≤ (computeSummary months).total_applications := by
    rw [ht, hp]; exact specPendingM_le_specTotalM months
  rcases Nat.eq_zero_or_pos (computeSummary months).total_applications with h0 | h0
  · have hpz : (computeSummary months).pending_percentage = 0 := by
      simp only [computeSummary] at h0 ⊢
      simp only [gt_iff_lt]
      rw [if_neg (by omega)]
    refine ⟨le_of_eq hpz.symm, by rw [hpz]; norm_num, ?_⟩
    rw [hpz, if_neg (by omega)]
  · have hform : (computeSummary months).pending_percentage =
        round2 (((computeSummary months).pending_applications : ℚ)
          / ((computeSummary months).total_applications : ℚ) * 100) := by
      simp only [computeSummary] at h0 ⊢
      rw [if_pos (by omega)]
    have hq0 : (0 : ℚ) ≤ ((computeSummary months).pending_applications : ℚ)
        / ((computeSummary months).total_applications : ℚ) * 100 := by positivity
    have hq1 : ((computeSummary months).pending_applications : ℚ)
        / ((computeSummary months).total_applications : ℚ) * 100 ≤ 100 := by
      have hratio : ((computeSummary months).pending_applications : ℚ)
          / ((computeSummary months).total_applications : ℚ) ≤ 1 := by
        rw [div_le_one (by exact_mod_cast h0)]
        exact_mod_cast hle
      nlinarith
    exact ⟨hform ▸ round2_nonneg hq0, hform ▸ round2_le_100 hq1,
      by rw [hform, if_pos h0]⟩

/-- A getD result different from the default comes from a real index. -/
lemma getD_ne_default_lt {s : List Char} {i : Nat} {d : Char}
    (h : s.getD i d ≠ d) : i < s.length := by
  by_contra hc
  push_neg at hc
  rw [List.getD_eq_getElem?_getD, List.getElem?_eq_none hc] at h
  simp at h

/-- The loop step adds the bracket delta of the current character. -/
lemma bracketStep_eq (c : Char) (k : Int) : bracketStep c k = k + brDelta c := by
  unfold bracketStep brDelta
  split_ifs <;> ring

/-- Nesting of a span decomposes at its head. -/
lemma brSum_cons (c : Char) (l : List Char) : brSum (c :: l) = brDelta c + brSum l := rfl

/-- The bracket delta of a character is one, minus one or zero. -/
lemma brDelta_cases (c : Char) : brDelta c = 1 ∨ brDelta c = -1 ∨ brDelta c = 0 := by
  unfold brDelta
  split_ifs <;> simp

/-- A character with bracket delta minus one is the closing bracket. -/
lemma brDelta_eq_neg_one {c : Char} (h : brDelta c = -1) : c = ']' := by
  unfold brDelta at h
  split_ifs at h with h1 h2
  exact h2

/-- With a nonpositive count the loop exits immediately. -/
lemma bracketLoop_nonpos (s : List Char) (fuel i : Nat) (k : Int) (h : ¬ k > 0) :
    bracketLoop s fuel i k = (i, k) := by
  cases fuel <;> simp [bracketLoop, h]

/-- Beyond the end of the string every character reads as the default space,
so the count never changes. -/
lemma bracketLoop_out_of_range (s : List Char) :
    ∀ (fuel i : Nat) (k : Int), s.length ≤ i → (bracketLoop s fuel i k).2 = k := by
  intro fuel
  induction fuel with
  | zero => intro i k _; rfl
  | succ f ih =>
    intro i k h
    unfold bracketLoop
    by_cases hk : k > 0
    · rw [if_pos hk]
      have hsp : s.getD i ' ' = ' ' := by
        rw [List.getD_eq_getElem?_getD, List.getElem?_eq_none h]
        rfl
      rw [hsp]
      have hst : bracketStep ' ' k = k := by
        unfold bracketStep
        rw [if_neg (by decide), if_neg (by decide)]
      rw [hst]
      exact ih (i + 1) k (by omega)
    · rw [if_neg hk]

/-- Main invariant of the bracket-counting loop: when the loop starting at
index i with a positive count ends with count zero, it advanced at least one
character, stayed inside its fuel budget and the string, the last character
it consumed is a closing bracket, and the net nesting of the consumed span
cancels the starting count. -/
lemma bracketLoop_balanced (s : List Char) :
    ∀ (fuel i : Nat) (k : Int), 0 < k →
      (bracketLoop s fuel i k).2 = 0 →
      i < (bracketLoop s fuel i k).1 ∧
      (bracketLoop s fuel i k).1 ≤ i + fuel ∧
      (bracketLoop s fuel i k).1 ≤ s.length ∧
      s.getD ((bracketLoop s fuel i k).1 - 1) ' ' = ']' ∧
      k + brSum ((s.drop i).take ((bracketLoop s fuel i k).1 - i)) = 0 := by
  intro fuel
  induction fuel with
  | zero =>
    intro i k hk h0
    exfalso
    have hr : (bracketLoop s 0 i k).2 = k := rfl
    omega
  | succ f ih =>
    intro i k hk h0
    have heq : bracketLoop s (f + 1) i k =
        bracketLoop s f (i + 1) (bracketStep (s.getD i ' ') k) := by
      simp [bracketLoop, hk]
    by_cases hi : i < s.length
    · have hdropc : s.drop i = s.getD i ' ' :: s.drop (i + 1) := by
        rw [List.drop_eq_getElem_cons hi]
        congr 1
        rw [List.getD_eq_getElem?_getD, List.getElem?_eq_getElem hi]
        rfl
      by_cases hk' : 0 < bracketStep (s.getD i ' ') k
      · rw [heq] at h0 ⊢
        obtain ⟨h1, h2, h3, h4, h5⟩ := ih (i + 1) _ hk' h0
        refine ⟨by omega, by omega, h3, h4, ?_⟩
        have hsplit : (s.drop i).take ((bracketLoop s f (i + 1)
            (bracketStep (s.getD i ' ') k)).1 - i) =
            s.getD i ' ' :: (s.drop (i + 1)).take ((bracketLoop s f (i + 1)
              (bracketStep (s.getD i ' ') k)).1 - (i + 1)) := by
          rw [hdropc]
          have hn : (bracketLoop s f (i + 1) (bracketStep (s.getD i ' ') k)).1 - i =
              ((bracketLoop s f (i + 1) (bracketStep (s.getD i ' ') k)).1 - (i + 1)) + 1 := by
            omega
          rw [hn, List.take_succ_cons]
        rw [hsplit, brSum_cons]
        have hks : bracketStep (s.getD i ' ') k = k + brDelta (s.getD i ' ') :=
          bracketStep_eq _ _
        omega
      · have hks : bracketStep (s.getD i ' ') k = k + brDelta (s.getD i ' ') :=
          bracketStep_eq _ _
        have hdc := brDelta_cases (s.getD i ' ')
        have hzero : bracketStep (s.getD i ' ') k = 0 := by omega
        have hkone : k = 1 := by omega
        have hdm1 : brDelta (s.getD i ' ') = -1 := by omega
        have hcbr : s.getD i ' ' = ']' := brDelta_eq_neg_one hdm1
        rw [heq, bracketLoop_nonpos s f (i + 1) _ (by omega)]
        refine ⟨by omega, by omega, by omega, ?_, ?_⟩
        · simpa using hcbr
        · have h1 : i + 1 - i = 1 := by omega
          simp only [h1, hdropc, List.take_succ_cons, List.take_zero]
          rw [brSum_cons]
          show k + (brDelta (s.getD i ' ') + brSum []) = 0
          simp only [brSum, List.foldr_nil]
          omega
    · exfalso
      have := bracketLoop_out_of_range s (f + 1) i k (by omega)
      omega

/-- C3.  When the bracket scan starting at an opening bracket reaches
balance inside the bounded lookahead window of 50000 characters, the
extracted span starts with an opening bracket, ends with a closing bracket
and has net bracket nesting zero; and when the loop never reaches balance
inside the window, the extraction reports no array found instead of a
truncated span. -/
theorem bracket_span_well_formed (s : List Char) (start : Nat)
    (hlen : start < s.length) (hc : s.getD start ' ' = '[') :
    (∀ a, extractBalanced s start 50000 = some a →
      a.head? = some '[' ∧ a.getLast? = some ']' ∧ brSum a = 0) ∧
    ((bracketLoop s (min (start + 50000) s.length - (start + 1)) (start + 1) 1).2 ≠ 0 →
      extractBalanced s start 50000 = none) := by
  constructor
  · intro a ha
    simp only [extractBalanced] at ha
    by_cases h2 : (bracketLoop s (min (start + 50000) s.length - (start + 1))
        (start + 1) 1).2 = 0
    · rw [if_pos h2] at ha
      obtain ⟨h1, hb2, h3, h4, h5⟩ := bracketLoop_balanced s
        (min (start + 50000) s.length - (start + 1)) (start + 1) 1 (by omega) h2
      set e := (bracketLoop s (min (start + 50000) s.length - (start + 1))
        (start + 1) 1).1 with he
      have hdropc : s.drop start = s.getD start ' ' :: s.drop (start + 1) := by
        rw [List.drop_eq_getElem_cons hlen]
        congr 1
        rw [List.getD_eq_getElem?_getD, List.getElem?_eq_getElem hlen]
        rfl
      have hone : e - start = (e - (start + 1)) + 1 := by omega
      have hsplit : (s.drop start).take (e - start) =
          s.getD start ' ' :: (s.drop (start + 1)).take (e - (start + 1)) := by
        rw [hdropc, hone, List.take_succ_cons]
      have haval : a = s.getD start ' ' :: (s.drop (start + 1)).take (e - (start + 1)) := by
        rw [← hsplit]
        exact (Option.some.inj ha).symm
      refine ⟨?_, ?_, ?_⟩
      · rw [haval, hc]
        rfl
      · have hlena : a.length = e - start := by
          rw [haval]
          simp only [List.length_cons, List.length_take, List.length_drop]
          omega
        rw [List.getLast?_eq_getElem?, hlena]
        have hal : a = (s.drop start).take (e - start) := (Option.some.inj ha).symm
        rw [hal, List.getElem?_take, if_pos (by omega), List.getElem?_drop]
        have hidx : start + (e - start - 1) = e - 1 := by omega
        rw [hidx, List.getElem?_eq_getElem (by omega)]
        have := h4
        rw [List.getD_eq_getElem?_getD, List.getElem?_eq_getElem (by omega)] at this
        simp only [Option.getD_some] at this
        rw [this]
      · rw [haval, brSum_cons, hc]
        have hrw : brDelta '[' = 1 := by decide
        rw [hrw]
        omega
    · rw [if_neg h2] at ha
      exact absurd ha (by simp)
  · intro h
    simp only [extractBalanced]
    rw [if_neg h]

/-- One unfolding step of the retry loop. -/
lemma fetchLoop_succ (env : Nat → Outcome) (rc fuel attempt : Nat) :
    fetchLoop env rc (fuel + 1) attempt =
      (match env attempt with
       | Outcome.success t => Except.ok (some t)
       | o =>
         if attempt < rc - 1 then fetchLoop env rc fuel (attempt + 1)
         else Except.error (outcomeErr o)) := rfl

/-- When every attempt inside the range fails, the loop re-raises the error
of the final attempt. -/
lemma fetchLoop_all_fail (env : Nat → Outcome) (rc : Nat) :
    ∀ (fuel attempt : Nat), fuel = rc - attempt → attempt < rc →
      (∀ i, attempt ≤ i → i < rc → ∀ t, env i ≠ Outcome.success t) →
      fetchLoop env rc fuel attempt = Except.error (outcomeErr (env (rc - 1))) := by
  intro fuel
  induction fuel with
  | zero =>
    intro attempt h1 h2 _
    omega
  | succ f ih =>
    intro attempt hf ha hfail
    rw [fetchLoop_succ]
    cases ho : env attempt with
    | success t => exact absurd ho (hfail attempt le_rfl ha t)
    | transportFail =>
      dsimp only
      by_cases hlt : attempt < rc - 1
      · rw [if_pos hlt]
        exact ih (attempt + 1) (by omega) (by omega)
          (fun i hi1 hi2 t => hfail i (by omega) hi2 t)
      · rw [if_neg hlt]
        have hend : attempt = rc - 1 := by omega
        rw [hend] at ho
        rw [ho]
    | httpFail c =>
      dsimp only
      by_cases hlt : attempt < rc - 1
      · rw [if_pos hlt]
        exact ih (attempt + 1) (by omega) (by omega)
          (fun i hi1 hi2 t => hfail i (by omega) hi2 t)
      · rw [if_neg hlt]
        have hend : attempt = rc - 1 := by omega
        rw [hend] at ho
        rw [ho]

/-- C8 (amended).  In fetch_html_from_url every exception of the requests
library is retried alike: an HTTP 4xx or 5xx failure raised by
raise_for_status is a RequestException and is caught and retried exactly as
a transport failure is, with the jittered sleep between attempts; only when
every configured attempt has failed is the final exception re-raised to the
caller. -/
theorem fetch_retries_all_request_errors :
    (∀ (env : Nat → Outcome) (n c : Nat) (t : List Char),
      2 ≤ n → env 0 = Outcome.httpFail c → env 1 = Outcome.success t →
      fetch_html_from_url env n = Except.ok (some t)) ∧
    (∀ (env : Nat → Outcome) (n : Nat),
      0 < n → (∀ i, i < n → ∀ t, env i ≠ Outcome.success t) →
      fetch_html_from_url env n = Except.error (outcomeErr (env (n - 1)))) := by
  constructor
  · intro env n c t hn h0 h1
    obtain ⟨m, rfl⟩ := Nat.exists_eq_add_of_le hn
    show fetchLoop env (2 + m) (2 + m) 0 = Except.ok (some t)
    have e1 : 2 + m = (1 + m) + 1 := by omega
    rw [e1, fetchLoop_succ, h0]
    dsimp only
    rw [if_pos (by omega)]
    have e2 : 1 + m = m + 1 := by omega
    rw [e2, fetchLoop_succ, h1]
  · intro env n hn hfail
    exact fetchLoop_all_fail env n n 0 (by omega) hn
      (fun i _ hi2 t => hfail i hi2 t)

/-- Network environment in which the first attempt fails with an HTTP 500
response and the second succeeds. -/
def envCexA : Nat → Outcome := fun i =>
  if i = 0 then Outcome.httpFail 500
  else if i = 1 then Outcome.success "ok".toList
  else Outcome.transportFail

/-- Network environment in which every attempt fails at transport level. -/
def envCexB : Nat → Outcome := fun _ => Outcome.transportFail

/-- C8 counterexample.  The claim says an HTTP 4xx or 5xx failure detected
by raise_for_status is not retried and propagates to the caller; but with
an HTTP 500 on the first attempt and a success on the second, the fetcher
returns the success instead of propagating the HTTP error, because
HTTPError is a subclass of the caught RequestException. -/
theorem http_failure_is_retried_cex :
    envCexA 0 = Outcome.httpFail 500 ∧
    fetch_html_from_url envCexA 3 = Except.ok (some "ok".toList) := by
  constructor
  · rfl
  · rfl

/-- Witness for the amended C8 theorem at concrete environments. -/
theorem fetch_retries_all_request_errors_witness :
    fetch_html_from_url envCexA 3 = Except.ok (some "ok".toList) ∧
    fetch_html_from_url envCexB 2 = Except.error FetchErr.transport := by
  constructor
  · exact fetch_retries_all_request_errors.1 envCexA 3 500 "ok".toList (by omega) rfl rfl
  · have h := fetch_retries_all_request_errors.2 envCexB 2 (by omega)
      (fun i _ t => by simp [envCexB])
    simpa [envCexB, outcomeErr] using h

/-- A successful bounded scan yields a real occurrence at or after the
start index. -/
lemma findIdxFromAux_some {s tok : List Char} :
    ∀ {fuel i j : Nat}, findIdxFromAux s tok fuel i = some j →
      matchAt s tok j = true ∧ i ≤ j := by
  intro fuel
  induction fuel with
  | zero => intro i j h; exact absurd h (by simp [findIdxFromAux])
  | succ f ih =>
    intro i j h
    unfold findIdxFromAux at h
    by_cases hm : matchAt s tok i = true
    · rw [if_pos hm] at h
      obtain rfl := Option.some.inj h
      exact ⟨hm, le_rfl⟩
    · rw [if_neg hm] at h
      obtain ⟨h1, h2⟩ := ih h
      exact ⟨h1, by omega⟩

/-- Any occurrence inside the fuel range is found by the bounded scan. -/
lemma findIdxFromAux_complete {s tok : List Char} :
    ∀ {fuel i j : Nat}, i ≤ j → j < i + fuel → matchAt s tok j = true →
      (findIdxFromAux s tok fuel i).isSome = true := by
  intro fuel
  induction fuel with
  | zero => intro i j h1 h2 _; omega
  | succ f ih =>
    intro i j h1 h2 hm
    unfold findIdxFromAux
    by_cases hmi : matchAt s tok i = true
    · rw [if_pos hmi]; rfl
    · rw [if_neg hmi]
      have hne : i ≠ j := fun he => hmi (he ▸ hm)
      exact ih (by omega) (by omega) hm

/-- A match of a longer token shifted past its head character gives a match
of the tail token one position further. -/
lemma matchAt_cons_shift {s w : List Char} {c : Char} {j : Nat}
    (h : matchAt s (c :: w) j = true) : matchAt s w (j + 1) = true := by
  unfold matchAt at h ⊢
  cases hd : s.drop j with
  | nil => rw [hd] at h; simp [List.isPrefixOf] at h
  | cons a t =>
    rw [hd] at h
    simp only [List.isPrefixOf, Bool.and_eq_true] at h
    have ht : s.drop (j + 1) = t := by
      rw [← List.tail_drop, hd]
      rfl
    rw [ht]
    exact h.2

/-- A prefix match of a concatenation gives a prefix match of its left part. -/
lemma isPrefixOf_append_left :
    ∀ (u v l : List Char), (u ++ v).isPrefixOf l = true → u.isPrefixOf l = true := by
  intro u
  induction u with
  | nil => intro v l _; simp [List.isPrefixOf]
  | cons a u ih =>
    intro v l h
    cases l with
    | nil => simp [List.isPrefixOf] at h
    | cons b t =>
      simp only [List.cons_append, List.isPrefixOf, Bool.and_eq_true] at h ⊢
      exact ⟨h.1, ih v t h.2⟩

/-- A match of a concatenation is a match of its left part. -/
lemma matchAt_append_left {s u v : List Char} {j : Nat}
    (h : matchAt s (u ++ v) j = true) : matchAt s u j = true :=
  isPrefixOf_append_left u v _ h

/-- A nonempty token can only match inside the string. -/
lemma matchAt_length_lt {s tok : List Char} {j : Nat} (hne : tok ≠ [])
    (h : matchAt s tok j = true) : j < s.length := by
  unfold matchAt at h
  by_contra hc
  push_neg at hc
  rw [List.drop_eq_nil_of_le hc] at h
  cases tok with
  | nil => exact hne rfl
  | cons a t => simp [List.isPrefixOf] at h

/-- A fragment containing the parenthesized today marker also contains the
bare word today. -/
lemma containsSub_today_of_ptoday {s : List Char}
    (h : containsSub s "(today)".toList = true) :
    containsSub s "today".toList = true := by
  unfold containsSub findIdxFrom at h ⊢
  obtain ⟨j, hj⟩ := Option.isSome_iff_exists.mp h
  obtain ⟨hm, _⟩ := findIdxFromAux_some hj
  have hsplit : "(today)".toList = '(' :: ("today".toList ++ [')']) := by decide
  rw [hsplit] at hm
  have hm2 := matchAt_append_left (matchAt_cons_shift hm)
  have hjlt : j < s.length := matchAt_length_lt (by decide) (hsplit ▸ hm)
  exact findIdxFromAux_complete (by omega) (by omega) hm2

/-- If no label mentions today, the today loop keeps its accumulator. -/
lemma computeTodayLoop_no_marker :
    ∀ (dd : List DayRec) (td : Option (List Char)),
      (∀ d ∈ dd, containsSub d.date "(today)".toList = false) →
      computeTodayLoop dd td = Except.ok td := by
  intro dd
  induction dd with
  | nil => intro td _; rfl
  | cons d rest ih =>
    intro td h
    unfold computeTodayLoop
    rw [h d (List.mem_cons_self d rest)]
    exact ih td (fun x hx => h x (List.mem_cons_of_mem d hx))

/-- The finalize stage only writes the todayDate field. -/
lemma finalizeToday_ok_dailyProgress {dd : List DayRec} {r0 r : ExtractResult}
    (h : finalizeToday dd r0 = Except.ok r) : r.dailyProgress = r0.dailyProgress := by
  unfold finalizeToday at h
  cases hcl : computeTodayLoop dd none with
  | error e => rw [hcl] at h; exact absurd h (by simp)
  | ok td =>
    rw [hcl] at h
    cases td with
    | some s =>
      obtain rfl := (Except.ok.inj h).symm
      rfl
    | none =>
      cases hl : dd.getLast? with
      | none =>
        rw [hl] at h
        obtain rfl := (Except.ok.inj h).symm
        rfl
      | some lastD =>
        rw [hl] at h
        dsimp only at h
        by_cases hcont : containsSub lastD.date "today".toList = true
        · rw [if_pos hcont] at h
          cases hp : parseTodayLabel2 lastD.date with
          | error e => rw [hp] at h; exact absurd h (by simp)
          | ok s =>
            rw [hp] at h
            obtain rfl := (Except.ok.inj h).symm
            rfl
        · rw [if_neg hcont] at h
          obtain rfl := (Except.ok.inj h).symm
          rfl

/-- When no label of the day data mentions today at all, the finalize stage
stores none in the todayDate field. -/
lemma finalizeToday_ok_no_marker {dd : List DayRec} {r0 r : ExtractResult}
    (hno : ∀ d ∈ dd, containsSub d.date "today".toList = false)
    (h : finalizeToday dd r0 = Except.ok r) : r.todayDate = none := by
  have hno7 : ∀ d ∈ dd, containsSub d.date "(today)".toList = false := by
    intro d hd
    by_contra hc
    have hc' : containsSub d.date "(today)".toList = true := by
      cases hh : containsSub d.date "(today)".toList
      · exact absurd hh hc
      · rfl
    have := containsSub_today_of_ptoday hc'
    rw [hno d hd] at this
    exact absurd this (by simp)
  unfold finalizeToday at h
  rw [computeTodayLoop_no_marker dd none hno7] at h
  cases hl : dd.getLast? with
  | none =>
    rw [hl] at h
    obtain rfl := (Except.ok.inj h).symm
    rfl
  | some lastD =>
    rw [hl] at h
    dsimp only at h
    have hmem : lastD ∈ dd := by
      have hm : lastD ∈ dd.getLast? := by rw [hl]; rfl
      obtain ⟨hh, rfl⟩ := List.mem_getLast?_eq_getLast hm
      exact List.getLast_mem hh
    rw [hno lastD hmem] at h
    simp only [Bool.false_eq_true, if_false] at h
    obtain rfl := (Except.ok.inj h).symm
    rfl

/-- Decidable equality of modelled Python outcomes. -/
instance {e a : Type} [DecidableEq e] [DecidableEq a] : DecidableEq (Except e a) := fun x y =>
  match x, y with
  | Except.ok u, Except.ok v =>
    if h : u = v then Decidable.isTrue (by rw [h])
    else Decidable.isFalse (fun hc => h (Except.ok.inj hc))
  | Except.error u, Except.error v =>
    if h : u = v then Decidable.isTrue (by rw [h])
    else Decidable.isFalse (fun hc => h (Except.error.inj hc))
  | Except.ok _, Except.error _ => Decidable.isFalse (fun hc => Except.noConfusion hc)
  | Except.error _, Except.ok _ => Decidable.isFalse (fun hc => Except.noConfusion hc)

set_option maxRecDepth 16000

/-- C9.  On every run of extract_perm_data that returns normally, the
returned todayDate is derived exclusively from a daily-progress date label
containing a today marker: line 422 unconditionally overwrites the value
captured earlier from the explicit todayDate field of the fragment, so the
result carries todayDate none whenever no daily label contains the marker,
whatever the fragment says elsewhere. -/
theorem todayDate_overwritten_by_marker (html : List Char) (r : ExtractResult)
    (h : extract_perm_data html = Except.ok r)
    (hlab : ∀ dl, r.dailyProgress = some dl →
      ∀ d ∈ dl, containsSub d.date "today".toList = false) :
    r.todayDate = none := by
  unfold extract_perm_data at h
  cases hf : findTargetBlock html with
  | none =>
    rw [hf] at h
    obtain rfl := (Except.ok.inj h).symm
    rfl
  | some b =>
    rw [hf] at h
    dsimp only at h
    unfold extractFromBlock at h
    cases hds : dailyStage b with
    | error e => rw [hds] at h; exact absurd h (by simp)
    | ok dopt =>
      rw [hds] at h
      dsimp only at h
      cases dopt with
      | none => exact absurd h (by simp)
      | some p =>
        dsimp only at h
        cases hsm : subMonthsStage b with
        | none =>
          rw [hsm] at h
          dsimp only at h
          have hdp : r.dailyProgress = some p.2 := by
            rw [finalizeToday_ok_dailyProgress h]
          exact finalizeToday_ok_no_marker (hlab p.2 hdp) h
        | some l =>
          rw [hsm] at h
          dsimp only at h
          by_cases hl : l ≠ []
          · rw [if_pos hl] at h
            have hdp : r.dailyProgress = some p.2 := by
              rw [finalizeToday_ok_dailyProgress h]
            exact finalizeToday_ok_no_marker (hlab p.2 hdp) h
          · rw [if_neg hl] at h
            have hdp : r.dailyProgress = some p.2 := by
              rw [finalizeToday_ok_dailyProgress h]
            exact finalizeToday_ok_no_marker (hlab p.2 hdp) h

/-- C10.  On every target fragment where none of the four daily anchor
patterns matches but the fragment contains the dollar-L18 tag at a positive
offset, the word data after it and a later opening bracket, the body of
extract_perm_data raises TypeError instead of returning a result: the
generic fallback of line 182 evaluates re.Match(), and the re.Match class
cannot be instantiated. -/
theorem generic_l18_fallback_raises_typeerr (block : List Char)
    (h1 : l18PatternSearch block = none)
    (h2 : pyFind block "$L18".toList 0 > 0)
    (h3 : pyFind block "data".toList (pyFind block "$L18".toList 0) >
      pyFind block "$L18".toList 0)
    (h4 : pyFind block "[".toList
      (pyFind block "data".toList (pyFind block "$L18".toList 0)) > 0) :
    extractFromBlock block = Except.error PyErr.typeErr := by
  have hd : dailyStage block = Except.error PyErr.typeErr := by
    unfold dailyStage
    rw [h1]
    dsimp only
    rw [if_pos ⟨h2, h3⟩, if_pos h4]
  unfold extractFromBlock
  rw [hd]

/-- Target fragment used to witness the todayDate overwrite: it carries an
explicit todayDate field, a monthly array (with no statuses, so the summary
takes the guarded zero branch) and a daily series whose single label has no
today marker. -/
def blockC9 : List Char := "xtodayDate\":\"2099-09-09\" submissionMonths\":[\x7b\"month\":\"Mar 2025\",\"active\":true,\"statuses\":[]\x7d] [\"$\",\"$L18\",null,\x7b\"data\":[2935,\x7b\"0\":\"Feb/24/25 Mon\",\"1\":3\x7d]\x7d]".toList

/-- Target fragment with monthly data but no daily-series anchor at all. -/
def blockC2 : List Char := "xsubmissionMonths\":[\x7b\"month\":\"Mar 2025\",\"active\":true,\"statuses\":[\x7b\"status\":\"CERTIFIED\",\"count\":100,\"dailyChange\":5\x7d]\x7d]".toList

/-- Target fragment whose daily anchor matches but whose outer daily array
never closes, so the staged daily extraction fails while a day-object-shaped
substring is present for the documented fallback to find. -/
def blockC4 : List Char := "xsubmissionMonths [\"$\",\"$L18\",null,\x7b\"data\":[7,\x7b\"0\":\"Feb/24/25 Mon\",\"1\":3\x7d]".toList

/-- Target fragment whose single daily label is marked today but has an
unrecognized month abbreviation. -/
def blockC6 : List Char := "xsubmissionMonths [\"$\",\"$L18\",null,\x7b\"data\":[7,\x7b\"0\":\"Xyz/15/25 (today)\",\"1\":3\x7d]\x7d]".toList

/-- Target fragment that matches no daily anchor pattern but contains the
dollar-L18 tag, the word data and a bracket, sending extract_perm_data into
the broken generic fallback. -/
def blockC10 : List Char := "xsubmissionMonths [\x7b\"month\":\"Mar 2025\",\"active\":true,\"statuses\":[]\x7d] $L18 data [1]".toList

/-- Fragment carrying the percentile text of scenario B of the spec in its
raw escaped form, surrounded by padding. -/
def fragC5 : List Char := "xx\\\"30%\\\":\\\"≤ \\\"42\\\"\\\"50%\\\":\\\"≤ \\\"64\\\"\\\"80%\\\":\\\"≤ \\\"90yy".toList

/-- Wrap a fragment in the script payload delimiters of the page. -/
def htmlOf (b : List Char) : List Char :=
  "<script>self.__next_f.push([1,\"".toList ++ b ++ "\"])</script>".toList

/-- The full result extract_perm_data computes on the C9 witness page. -/
def rC9 : ExtractResult :=
  ⟨none,
   some [⟨"Mar 2025".toList, true, []⟩],
   some 2935,
   some [⟨"Feb/24/25 Mon".toList, 3⟩],
   none,
   some ⟨0, 0, 0, 0, 0⟩⟩

/-- Witness for C9: the witness page carries an explicit todayDate field
(the todayDate search on its fragment captures 2099-09-09), the run returns
normally with a daily label free of any today marker, and the returned
todayDate is none. -/
theorem todayDate_overwritten_by_marker_witness :
    extract_perm_data (htmlOf blockC9) = Except.ok rC9 ∧
    todaySearch blockC9 = some "2099-09-09".toList ∧
    rC9.todayDate = none := by
  refine ⟨by decide, by decide, ?_⟩
  refine todayDate_overwritten_by_marker (htmlOf blockC9) rC9 (by decide) ?_
  intro dl hdl d hd
  have he := Option.some.inj
    (show some [({ date := "Feb/24/25 Mon".toList, total := 3 } : DayRec)] = some dl from hdl)
  rw [← he] at hd
  rw [List.mem_singleton.mp hd]
  decide

/-- Witness for C10: on the concrete fragment none of the four anchor
patterns matches, the dollar-L18 tag sits at a positive offset with the
word data and a bracket after it, and the body raises TypeError. -/
theorem generic_l18_fallback_raises_typeerr_witness :
    (l18PatternSearch blockC10 = none ∧
     pyFind blockC10 "$L18".toList 0 > 0) ∧
    extractFromBlock blockC10 = Except.error PyErr.typeErr :=
  ⟨⟨by decide, by decide⟩,
   generic_l18_fallback_raises_typeerr blockC10 (by decide) (by decide)
     (by decide) (by decide)⟩

/-- C2 (code bug).  The spec declares a structural miss non-fatal, with the
affected field absent and the other extractions still returned; but on a
page whose target fragment has monthly data and no daily-series anchor, the
daily stage is a clean miss (no exception, no day data) and
extract_perm_data then raises NameError at line 391, where the loop reads
the local variable daily_data that was never assigned, so nothing at all is
returned. -/
theorem structural_miss_raises_nameerr :
    dailyStage blockC2 = Except.ok none ∧
    subMonthsStage blockC2 ≠ none ∧
    extract_perm_data (htmlOf blockC2) = Except.error PyErr.nameErr := by
  refine ⟨by decide, by decide, by decide⟩

/-- C4 (code bug).  The spec says a failed staged daily extraction falls
back to scanning for day-object-shaped substrings by regex, dailyProgress
staying absent only when that fallback finds nothing; but the fallback is
unreachable (the except clause of line 275 catches json.JSONDecodeError
while the guarded block performs no JSON parsing), so on a fragment whose
daily anchor matches, whose outer array never balances, and which contains
a day-object-shaped substring the fallback would recover, extract_perm_data
raises NameError instead of returning that record. -/
theorem dead_daily_fallback_nameerr :
    dayRegexScan blockC4 = [⟨"Feb/24/25 Mon".toList, 3⟩] ∧
    dailyStage blockC4 = Except.ok none ∧
    extract_perm_data (htmlOf blockC4) = Except.error PyErr.nameErr := by
  refine ⟨by decide, by decide, by decide⟩

/-- C5.  On a fragment containing the percentile text of scenario B (in its
raw escaped carrier form, as the pattern of line 329 expects it inside the
fragment), the percentile extractor returns the processing-time percentiles
42, 64 and 90. -/
theorem percentile_scenario_b :
    percSearch fragC5 = some (42, 64, 90) := by decide

/-- C6 (code bug).  The spec documents a fallback to January (month number
one) on an unrecognized month abbreviation, an explicit degraded behaviour
rather than a crash, and the record-date derivation of save_to_postgres
(line 644) indeed degrades that way; but the today-label normalization of
extract_perm_data (line 402) takes the string default 01 from the month
table and formats it with the 02d specifier, which raises ValueError, so a
today-marked daily label with an unknown month abbreviation crashes the
whole extraction. -/
theorem unknown_month_raises_valueerr :
    extract_perm_data (htmlOf blockC6) = Except.error PyErr.valueErr ∧
    parseTodayLabel "Xyz/15/25 (today)".toList = Except.error PyErr.valueErr ∧
    derive_record_date "Xyz/15/25 (today)".toList = some "2025-01-15".toList := by
  refine ⟨by decide, by decide, by decide⟩

/-- Witness for C3 at a concrete input: the scan of the nested array span
starting at index one of the string x[[]] returns the span itself, whose
first character is an opening bracket, whose last character is a closing
bracket and whose nesting sums to zero. -/
theorem bracket_span_well_formed_witness :
    extractBalanced "x[[]]".toList 1 50000 = some "[[]]".toList ∧
    ("[[]]".toList.head? = some '[' ∧ "[[]]".toList.getLast? = some ']' ∧
      brSum "[[]]".toList = 0) :=
  ⟨by decide,
   (bracket_span_well_formed "x[[]]".toList 1 (by decide) (by decide)).1
     "[[]]".toList (by decide)⟩
